import Mathlib

/-!
Verification of the Dispatcharr reconciliation engine
(`custom_components/dispatcharr_sensor`): a shallow embedding of the
channel-directory builds, the name matcher, the EPG resolver, the
authenticated-request gateway and the per-tick update cycles of both
coordinator variants (`__init__.py`, the guide-sourced variant, and
`sensor.py`, the registry-sourced variant), together with theorems about
their behaviour.
-/

namespace Dispatcharr

/-! ## Character and string helpers

Models of the Python string operations used by the integration:
`re.sub(r'^\w+:\s*|\s+HD$', '', name, flags=re.IGNORECASE)` and
`homeassistant.util.slugify` (restricted to its ASCII behaviour:
lowercase, alphanumeric runs joined by underscores). -/

/-- Word character, as in the regex class backslash-w: letters, digits, underscore. -/
def isWordChar (c : Char) : Bool := c.isAlphanum || c = '_'

/-- Whitespace character, as in the regex class backslash-s. -/
def isSpaceChar (c : Char) : Bool :=
  c = ' ' || c = '\t' || c = '\n' || c = '\r' || c = Char.ofNat 11 || c = Char.ofNat 12

/-- Models the leading alternative of the stream-name cleanup regex: strip a
leading run of word characters followed by a colon and any following
whitespace (the tag prefix), if present. -/
def stripTag (s : List Char) : List Char :=
  match s.dropWhile isWordChar with
  | ':' :: rest => if s.takeWhile isWordChar = [] then s else rest.dropWhile isSpaceChar
  | _ => s

/-- Models the trailing alternative of the stream-name cleanup regex: strip a
trailing case-insensitive "HD" preceded by at least one whitespace character,
together with that whitespace run. -/
def stripHD (s : List Char) : List Char :=
  match s.reverse with
  | d :: h :: c :: rest =>
    if (d = 'd' || d = 'D') && (h = 'h' || h = 'H') && isSpaceChar c then
      (((c :: rest).dropWhile isSpaceChar)).reverse
    else s
  | _ => s

/-- Splits a character list into maximal runs of alphanumeric characters
(the words that `slugify` joins with underscores). -/
def splitWordsAux : List Char → List Char → List (List Char)
  | [], acc => if acc.isEmpty then [] else [acc.reverse]
  | c :: rest, acc =>
    if c.isAlphanum then splitWordsAux rest (c :: acc)
    else if acc.isEmpty then splitWordsAux rest []
    else acc.reverse :: splitWordsAux rest []

/-- Models `homeassistant.util.slugify` on ASCII input: lowercase the string,
keep alphanumeric runs as words, and join the words with single underscores
(leading/trailing/repeated separators collapse away). -/
def slugify (s : String) : String :=
  String.mk (List.intercalate ['_'] (splitWordsAux (s.data.map Char.toLower) []))

/-- Contiguous-substring test, modelling Python's `needle in hay` on strings. -/
def strContains (hay needle : List Char) : Bool :=
  hay.tails.any (fun t => needle.isPrefixOf t)

/-! ## Dictionary model

Python `dict` with string keys, modelled as an insertion-ordered association
list with unique keys: lookup returns the value at the first matching key,
and assignment replaces in place or appends at the end. -/

/-- Python `d.get(k)`. -/
def dictGet {α : Type} (k : String) : List (String × α) → Option α
  | [] => none
  | kv :: rest => if kv.1 = k then some kv.2 else dictGet k rest

/-- Python `d[k] = v`: replace the value at an existing key in place, or
append a new binding at the end (dict insertion order). -/
def dictInsert {α : Type} (m : List (String × α)) (k : String) (v : α) : List (String × α) :=
  match dictGet k m with
  | some _ => m.map (fun kv => if kv.1 = k then (k, v) else kv)
  | none => m ++ [(k, v)]

/-! ## Channel directory, guide-sourced variant

Embedding of `async_populate_channel_map_from_xml` and
`_get_channel_details_from_stream_name` from `__init__.py`. -/

/-- A parsed XMLTV `channel` element: `findtext("display-name")`,
the `id` attribute, and the `icon` child's `src` attribute. -/
structure XmlChannel where
  displayName : Option String
  id : Option String
  iconSrc : Option String
deriving DecidableEq

/-- A value of the guide-sourced channel map. -/
structure ChannelDetails where
  id : String
  name : String
  logoUrl : Option String
deriving DecidableEq

/-- One iteration of the channel loop of `async_populate_channel_map_from_xml`:
a channel element with a truthy display name and id attribute has its details
indexed by the slug of the display name; anything else is skipped. -/
def stepChannelMap (m : List (String × ChannelDetails)) (ch : XmlChannel) :
    List (String × ChannelDetails) :=
  match ch.displayName, ch.id with
  | some dn, some cid =>
    if dn ≠ "" ∧ cid ≠ "" then dictInsert m (slugify dn) ⟨cid, dn, ch.iconSrc⟩ else m
  | _, _ => m

/-- The whole channel loop of `async_populate_channel_map_from_xml`. -/
def buildChannelMapFromXml (channels : List XmlChannel) : List (String × ChannelDetails) :=
  channels.foldl stepChannelMap []

/-- Whether a channel element passes the `if display_name and channel_id`
inclusion test of the guide-sourced build. -/
def isValidXmlChannel (ch : XmlChannel) : Bool :=
  (match ch.displayName with | some dn => dn ≠ "" | none => false) &&
  (match ch.id with | some cid => cid ≠ "" | none => false)

/-- The directory key a channel element is indexed under. -/
def slugOfChannel (ch : XmlChannel) : String := slugify (ch.displayName.getD "")

/-- The full `async_populate_channel_map_from_xml` state transition on
`self.channel_map`. The input `Option (List XmlChannel)` is the result of
`ET.fromstring` on the fetched guide document (`none` = `ET.ParseError`).
An unparsable document and an empty resulting map each raise
`ConfigEntryNotReady`, modelled as `Except.error`; the prior map is never
read (the directory is rebuilt wholesale), which is why `prior` is unused. -/
def populateChannelMapFromXml (prior : List (String × ChannelDetails))
    (doc : Option (List XmlChannel)) : Except String (List (String × ChannelDetails)) :=
  match doc with
  | none => .error "Failed to parse XML for channel map"
  | some channels =>
    let m := buildChannelMapFromXml channels
    if m = [] then .error "XML was fetched, but no channels could be mapped." else .ok m

/-- The normalization step of `_get_channel_details_from_stream_name`:
`slugify(re.sub(r'^\w+:\s*|\s+HD$', '', stream_name, flags=re.IGNORECASE))`. -/
def simplifyStreamName (streamName : String) : String :=
  slugify (String.mk (stripHD (stripTag streamName.data)))

/-- Stable insertion into a list sorted by key length descending; used to
model Python's stable `sorted(..., key=lambda item: len(item[0]), reverse=True)`. -/
def insertDesc {α : Type} (x : String × α) : List (String × α) → List (String × α)
  | [] => [x]
  | y :: ys => if x.1.length < y.1.length then y :: insertDesc x ys else x :: y :: ys

/-- Stable sort by key length, longest first, mirroring Python's stable sort. -/
def sortByKeyLenDesc {α : Type} (l : List (String × α)) : List (String × α) :=
  l.foldr insertDesc []

/-- `_get_channel_details_from_stream_name` from `__init__.py`: falsy names
match nothing; an exact slug match wins; otherwise every directory key that
is a substring of the simplified name is collected and the entry with the
longest key (ties broken by map iteration order, since the sort is stable)
is returned; no match yields `none`. -/
def getChannelDetailsFromStreamName (cmap : List (String × ChannelDetails))
    (streamName : String) : Option ChannelDetails :=
  if streamName = "" then none
  else
    match dictGet (simplifyStreamName streamName) cmap with
    | some d => some d
    | none =>
      match sortByKeyLenDesc
          (cmap.filter (fun kv => strContains (simplifyStreamName streamName).data kv.1.data)) with
      | [] => none
      | best :: _ => some best.2

/-! ## XMLTV timestamps and programmes

Embedding of `datetime.strptime(ts, "%Y%m%d%H%M%S %z")` on the canonical
XMLTV timestamp shape `YYYYMMDDHHMMSS ±HHMM` (the format named in the
source), mapping a parseable timestamp to an absolute instant in seconds
since the Unix epoch (an `Int`), and of the `programme` element data the
loops read. -/

/-- Value of an ASCII digit character, `none` otherwise. -/
def digitVal (c : Char) : Option Nat :=
  if c.isDigit then some (c.toNat - 48) else none

/-- Reads a fixed list of digit characters as a decimal number. -/
def digitsVal (cs : List Char) : Option Nat :=
  cs.foldl (fun acc c => match acc, digitVal c with
    | some n, some d => some (n * 10 + d)
    | _, _ => none) (some 0)

/-- Gregorian leap-year test. -/
def isLeapYear (y : Nat) : Bool :=
  y % 4 = 0 && (y % 100 ≠ 0 || y % 400 = 0)

/-- Number of days in a month (month numbered 1-12). -/
def daysInMonth (y m : Nat) : Nat :=
  if m = 2 then (if isLeapYear y then 29 else 28)
  else if m = 4 ∨ m = 6 ∨ m = 9 ∨ m = 11 then 30
  else 31

/-- Days from 1970-01-01 to the given civil date (standard civil-from-days
inverse; valid for years 1-9999 as accepted by `datetime`). -/
def daysFromCivil (y m d : Nat) : Int :=
  let ys := if m ≤ 2 then y - 1 else y
  let era := ys / 400
  let yoe := ys % 400
  let doy := (153 * (if m > 2 then m - 3 else m + 9) + 2) / 5 + d - 1
  let doe := yoe * 365 + yoe / 4 - yoe / 100 + doy
  (era * 146097 + doe : Int) - 719468

/-- `datetime.strptime(s, "%Y%m%d%H%M%S %z")` on the canonical fixed-width
XMLTV timestamp, followed by conversion to seconds since the Unix epoch.
Rejects (returns `none` for) strings of any other shape and any component
a `datetime` would refuse (month, day-of-month, hour, minute, second out of
range, year 0, or a UTC offset of a day or more). -/
def parseXmltvTimestamp (s : String) : Option Int :=
  match s.data with
  | [y1, y2, y3, y4, mo1, mo2, d1, d2, h1, h2, mi1, mi2, s1, s2, sp, sign, oh1, oh2, om1, om2] =>
    if sp = ' ' && (sign = '+' || sign = '-') then
      match digitsVal [y1, y2, y3, y4], digitsVal [mo1, mo2], digitsVal [d1, d2],
            digitsVal [h1, h2], digitsVal [mi1, mi2], digitsVal [s1, s2],
            digitsVal [oh1, oh2], digitsVal [om1, om2] with
      | some y, some mo, some d, some h, some mi, some sec, some oh, some om =>
        if 1 ≤ y ∧ 1 ≤ mo ∧ mo ≤ 12 ∧ 1 ≤ d ∧ d ≤ daysInMonth y mo ∧
            h ≤ 23 ∧ mi ≤ 59 ∧ sec ≤ 59 ∧ oh * 3600 + om * 60 < 86400 then
          let localSecs : Int :=
            daysFromCivil y mo d * 86400 + (h * 3600 + mi * 60 + sec : Nat)
          let off : Int := (oh * 3600 + om * 60 : Nat)
          some (if sign = '+' then localSecs - off else localSecs + off)
        else none
      | _, _, _, _, _, _, _, _ => none
    else none
  | _ => none

/-- A parsed XMLTV `programme` element: the attributes and child texts the
update loops read. -/
structure Programme where
  channel : Option String
  start : Option String
  stop : Option String
  title : Option String
  desc : Option String
  subTitle : Option String
  episodeNumOnscreen : Option String
deriving DecidableEq

/-- The guard-and-parse step shared by both update loops: require truthy
`start`/`stop` attribute strings, parse both timestamps, and surface the
interval; `none` exactly when the element is skipped (missing/empty
attribute or a `ValueError` from `strptime`). -/
def programmeInterval (p : Programme) : Option (Int × Int) :=
  match p.start, p.stop with
  | some ss, some ts =>
    if ss = "" ∨ ts = "" then none
    else
      match parseXmltvTimestamp ss, parseXmltvTimestamp ts with
      | some st, some en => some (st, en)
      | _, _ => none
  | _, _ => none

/-- Whether a programme is current at the instant `now`:
`start_time <= now < stop_time` on its parsed interval, and never current
when the interval is unavailable. -/
def programmeCurrent (p : Programme) (now : Int) : Bool :=
  match programmeInterval p with
  | some (st, en) => decide (st ≤ now) && decide (now < en)
  | none => false

/-! ## EPG resolver, registry-sourced variant (`sensor.py`)

Embedding of `_get_current_programs_from_xml`: one pass over the document's
`programme` elements, keeping for each requested channel key the first
element whose interval contains the snapshot instant. -/

/-- Value stored in the sensor variant's current-programs map (the
`isoformat` strings are represented by the instants they denote). -/
structure ProgramInfoS where
  title : Option String
  description : Option String
  startTime : Int
  endTime : Int
deriving DecidableEq

/-- One iteration of the `for program in root.findall(".//programme")` loop:
a programme for a requested channel that does not yet have an entry and
whose interval contains `now` is appended to the map. -/
def stepProg (epgIds : List String) (now : Int) (cur : List (String × ProgramInfoS))
    (p : Programme) : List (String × ProgramInfoS) :=
  match p.channel with
  | some c =>
    if c ∈ epgIds ∧ dictGet c cur = none then
      match programmeInterval p with
      | some (st, en) =>
        if st ≤ now ∧ now < en then cur ++ [(c, ⟨p.title, p.desc, st, en⟩)] else cur
      | none => cur
    else cur
  | none => cur

/-- The whole programme loop of `_get_current_programs_from_xml`. -/
def currentProgramsLoop (epgIds : List String) (now : Int) :
    List Programme → List (String × ProgramInfoS) → List (String × ProgramInfoS)
  | [], cur => cur
  | p :: rest, cur => currentProgramsLoop epgIds now rest (stepProg epgIds now cur p)

/-- The first programme in document order for channel `c` whose interval
contains `now`, as stored by the loop. -/
def firstCurrentProgram (progs : List Programme) (c : String) (now : Int) : Option ProgramInfoS :=
  progs.findSome? (fun p =>
    if p.channel = some c then
      match programmeInterval p with
      | some (st, en) =>
        if st ≤ now ∧ now < en then some ⟨p.title, p.desc, st, en⟩ else none
      | none => none
    else none)

/-- `_get_current_programs_from_xml` including its fast path and error
handling: an empty key set returns an empty map without fetching the guide;
otherwise the guide endpoint is fetched once, and any fetch or parse failure
(`guideDoc = none`) degrades to an empty map. The second component counts
requests made to the guide endpoint. -/
def getCurrentProgramsFromXml (epgIds : List String) (guideDoc : Option (List Programme))
    (now : Int) : List (String × ProgramInfoS) × Nat :=
  if epgIds = [] then ([], 0)
  else
    match guideDoc with
    | none => ([], 1)
    | some progs => (currentProgramsLoop epgIds now progs [], 1)

/-! ## Channel directory, registry-sourced variant (`sensor.py`)

Embedding of `async_populate_channel_details`: the registry response is
either a JSON list of channel objects or something else entirely
(`none` below); entries are indexed by their `uuid` field when present and
dropped otherwise, and a non-list response yields an empty directory with a
warning. The method never raises. -/

/-- A channel object from `GET /api/channels/channels/`; `uuid` is `some`
exactly when the object has a `uuid` field. -/
structure RegistryChannel where
  uuid : Option String
  name : Option String
  logoId : Option String
  tvgId : Option String
deriving DecidableEq

/-- One step of the dict comprehension of `async_populate_channel_details`:
an entry with a `uuid` field is indexed by it, others are dropped. -/
def stepChannelDetails (m : List (String × RegistryChannel)) (ch : RegistryChannel) :
    List (String × RegistryChannel) :=
  match ch.uuid with
  | some u => dictInsert m u ch
  | none => m

/-- The dict comprehension of `async_populate_channel_details`. -/
def buildChannelDetails (resp : Option (List RegistryChannel)) :
    List (String × RegistryChannel) :=
  match resp with
  | none => []
  | some l => l.foldl stepChannelDetails []

/-- The full `async_populate_channel_details` state transition on
`self.channel_details`. It always succeeds (the source raises nothing and
accepts an empty result); `prior` is unused because the directory is rebuilt
wholesale. -/
def populateChannelDetails (prior : List (String × RegistryChannel))
    (resp : Option (List RegistryChannel)) : Except String (List (String × RegistryChannel)) :=
  .ok (buildChannelDetails resp)

/-! ## Reconciliation tick, guide-sourced variant (`__init__.py`)

Embedding of `_async_update_data`: fetch the live sessions, stop early when
there are none, fetch the guide document once, fall back to the previous
output when it cannot be parsed, and otherwise enrich every valid session.
Each tick function returns its published value together with the number of
requests made to the guide endpoint during the tick. -/

/-- An active stream session as read by the guide-sourced loop
(`stream.get("channel_id")`, `stream.get("stream_name")`); the remaining
dict entries are carried by `stream.copy()` and never read, so they are not
modelled individually. -/
structure GSession where
  channelId : Option String
  streamName : Option String
deriving DecidableEq

/-- The program dict built by the guide-sourced loop (isoformat strings
represented by the instants they denote). -/
structure ProgramInfoG where
  title : Option String
  description : Option String
  startTime : Int
  endTime : Int
  subtitle : Option String
  episodeNum : Option String
deriving DecidableEq

/-- An enriched stream record of the guide-sourced variant: the copied
session plus the keys the loop may add. -/
structure EnrichedG where
  base : GSession
  xmltvId : Option String
  channelName : Option String
  logoUrl : Option String
  program : Option ProgramInfoG
deriving DecidableEq

/-- `root.iterfind(".//programme[@channel=cid]")` followed by the
first-current-then-break scan: the first programme for the channel whose
parsed interval contains `now`; elements with malformed timestamps are
skipped and parseable non-current elements do not stop the scan. -/
def findCurrentForChannel (progs : List Programme) (cid : String) (now : Int) :
    Option ProgramInfoG :=
  progs.findSome? (fun p =>
    if p.channel = some cid then
      match programmeInterval p with
      | some (st, en) =>
        if st ≤ now ∧ now < en then
          some ⟨p.title, p.desc, st, en, p.subTitle, p.episodeNumOnscreen⟩
        else none
      | none => none
    else none)

/-- Enrichment of one session whose name matched (or failed to match) the
channel map: on a match, the xmltv id, channel name, logo and the current
program (if any) are attached. -/
def enrichStreamGuide (cmap : List (String × ChannelDetails)) (progs : List Programme)
    (now : Int) (s : GSession) (nm : String) : EnrichedG :=
  match getChannelDetailsFromStreamName cmap nm with
  | none => ⟨s, none, none, none, none⟩
  | some d => ⟨s, some d.id, some d.name, d.logoUrl, findCurrentForChannel progs d.id now⟩

/-- Whether the guide-sourced loop processes a session: both
`stream.get("channel_id")` and `stream.get("stream_name")` must be truthy. -/
def isValidGSession (s : GSession) : Bool :=
  (match s.channelId with | some u => u ≠ "" | none => false) &&
  (match s.streamName with | some n => n ≠ "" | none => false)

/-- One iteration of the per-session loop of the guide-sourced
`_async_update_data`: a session missing a truthy channel id or stream name
is skipped with `continue`, every other session is enriched and stored under
its channel id (dict assignment, so a duplicated id overwrites). -/
def stepGuide (cmap : List (String × ChannelDetails)) (progs : List Programme) (now : Int)
    (acc : List (String × EnrichedG)) (s : GSession) : List (String × EnrichedG) :=
  match s.channelId, s.streamName with
  | some uuid, some nm =>
    if uuid ≠ "" ∧ nm ≠ "" then dictInsert acc uuid (enrichStreamGuide cmap progs now s nm)
    else acc
  | _, _ => acc

/-- The whole per-session loop of the guide-sourced `_async_update_data`. -/
def enrichLoopGuide (cmap : List (String × ChannelDetails)) (progs : List Programme)
    (now : Int) (sessions : List GSession) : List (String × EnrichedG) :=
  sessions.foldl (stepGuide cmap progs now) []

/-- The guide-sourced `_async_update_data` tick. `sessions` is the
`channels` list of the status response, `guideDoc` the parse result of the
guide document (`none` = `ET.ParseError`, in which case the previous output
`prev` — `self.data`, possibly still unset — is returned unchanged), and
`now` the single snapshot instant taken before the loop. The second
component counts guide-endpoint requests. -/
def updateDataGuide (cmap : List (String × ChannelDetails)) (sessions : List GSession)
    (guideDoc : Option (List Programme)) (prev : Option (List (String × EnrichedG)))
    (now : Int) : Option (List (String × EnrichedG)) × Nat :=
  if sessions = [] then (some [], 0)
  else
    match guideDoc with
    | none => (prev, 1)
    | some progs => (some (enrichLoopGuide cmap progs now sessions), 1)

/-! ## Reconciliation tick, registry-sourced variant (`sensor.py`) -/

/-- An active stream session as read by the registry-sourced loop; this
variant indexes `stream['channel_id']` unconditionally. -/
structure SSession where
  channelId : String
deriving DecidableEq

/-- An enriched stream record of the registry-sourced variant (`program`
is `none` both when the key is set to Python `None` and when it is never
set, which the claims do not distinguish). -/
structure EnrichedS where
  base : SSession
  logoUrl : Option String
  program : Option ProgramInfoS
deriving DecidableEq

/-- The `tvg_id` set comprehension: ids of sessions whose channel record
exists and carries a truthy `tvg_id`, deduplicated (`list(set(...))`; only
membership in the result is ever used, so the set's iteration order is
irrelevant and first-occurrence order is chosen). -/
def activeEpgIds (details : List (String × RegistryChannel)) (sessions : List SSession) :
    List String :=
  (sessions.filterMap (fun s =>
    match dictGet s.channelId details with
    | some d =>
      match d.tvgId with
      | some t => if t ≠ "" then some t else none
      | none => none
    | none => none)).dedup

/-- The enriched record the registry-sourced loop builds for one session:
a known channel record contributes a derived logo URL and the program looked
up in the current-programs map. -/
def enrichOneSensor (details : List (String × RegistryChannel)) (baseUrl : String)
    (progMap : List (String × ProgramInfoS)) (s : SSession) : EnrichedS :=
  match dictGet s.channelId details with
  | none => ⟨s, none, none⟩
  | some d =>
    let logo := match d.logoId with
      | some lid =>
        if lid ≠ "" then some (baseUrl ++ "/api/channels/logos/" ++ lid ++ "/cache/")
        else none
      | none => none
    let prog := match d.tvgId with
      | some t => if t ≠ "" then dictGet t progMap else none
      | none => none
    ⟨s, logo, prog⟩

/-- The per-session enrichment loop of the registry-sourced
`_async_update_data`: every session produces a record keyed by its channel
id. -/
def sensorEnrichLoop (details : List (String × RegistryChannel)) (baseUrl : String)
    (progMap : List (String × ProgramInfoS)) (sessions : List SSession) :
    List (String × EnrichedS) :=
  sessions.foldl (fun acc s => dictInsert acc s.channelId (enrichOneSensor details baseUrl progMap s)) []

/-- The registry-sourced `_async_update_data` tick; the second component
counts guide-endpoint requests (made inside
`_get_current_programs_from_xml`). -/
def updateDataSensor (details : List (String × RegistryChannel)) (baseUrl : String)
    (sessions : List SSession) (guideDoc : Option (List Programme)) (now : Int) :
    List (String × EnrichedS) × Nat :=
  if sessions = [] then ([], 0)
  else
    let fetched := getCurrentProgramsFromXml (activeEpgIds details sessions) guideDoc now
    (sensorEnrichLoop details baseUrl fetched.1 sessions, fetched.2)

/-! ## Authenticated request gateway

Embedding of `_api_request` (both files share the control flow for the
endpoints actually used): lazy token acquisition, one re-authentication and
one retry on a 401 response, `raise_for_status` on the final response, and
translation of client errors into the coordinator's update-failed state. -/

/-- Outcome of `_api_request`: a successful response status, an
`UpdateFailed` raised from a client error, or a `ConfigEntryNotReady`
raised by a failing `_get_new_token`. -/
inductive ApiResult where
  | ok (status : Nat)
  | updateFailed
  | notReady
deriving DecidableEq

/-- Observable trace of one `_api_request` call: how many token exchanges
were made lazily (no cached token), how many were triggered by a 401
(re-authentications), how many requests were issued to the target URL, and
the outcome. -/
structure ApiTrace where
  lazyAuths : Nat
  reauths : Nat
  requests : Nat
  result : ApiResult
deriving DecidableEq

/-- `_api_request hasToken auth1Ok auth2Ok r1 r2`: `hasToken` is whether an
access token is cached, `auth1Ok`/`auth2Ok` the outcomes of the first and
second token exchange this call would make, and `r1`/`r2` the status codes
of the first and the retried request. `raise_for_status` raises for any
status of 400 or above, which the handler turns into `updateFailed`. -/
def apiRequest (hasToken auth1Ok auth2Ok : Bool) (r1 r2 : Nat) : ApiTrace :=
  if hasToken then
    if r1 = 401 then
      if auth1Ok then
        ⟨0, 1, 2, if r2 < 400 then .ok r2 else .updateFailed⟩
      else ⟨0, 1, 1, .notReady⟩
    else ⟨0, 0, 1, if r1 < 400 then .ok r1 else .updateFailed⟩
  else
    if auth1Ok then
      if r1 = 401 then
        if auth2Ok then ⟨1, 1, 2, if r2 < 400 then .ok r2 else .updateFailed⟩
        else ⟨1, 1, 1, .notReady⟩
      else ⟨1, 0, 1, if r1 < 400 then .ok r1 else .updateFailed⟩
    else ⟨1, 0, 0, .notReady⟩

/-! ## Concrete fixtures used by the claims -/

/-- Directory entry for a channel named ESPN. -/
def espnDetails : ChannelDetails := ⟨"100", "ESPN", none⟩

/-- Directory entry for a channel named ESPN2. -/
def espn2Details : ChannelDetails := ⟨"200", "ESPN2", none⟩

/-- The directory with keys espn and espn2 from the spec's example. -/
def espnMap : List (String × ChannelDetails) := [("espn", espnDetails), ("espn2", espn2Details)]

/-- First entry of a directory with two equal-length keys. -/
def tieDetailsA : ChannelDetails := ⟨"1", "AB", none⟩

/-- Second entry of a directory with two equal-length keys. -/
def tieDetailsB : ChannelDetails := ⟨"2", "CD", none⟩

/-- A directory whose two keys have equal length, to exercise the tie-break. -/
def tieMap : List (String × ChannelDetails) := [("ab", tieDetailsA), ("cd", tieDetailsB)]

/-- Programme fixture from the spec's EPG example: 18:00-19:00 UTC on
2024-01-01. -/
def sampleProgramme : Programme :=
  ⟨some "c1", some "20240101180000 +0000", some "20240101190000 +0000", some "News", none, none,
    none⟩

/-- Two programme entries for one channel with overlapping intervals
(18:00-19:00 and 18:15-19:15), to exercise the at-most-one policy. -/
def overlapProgrammes : List Programme :=
  [⟨some "c1", some "20240101180000 +0000", some "20240101190000 +0000", some "First", none,
      none, none⟩,
    ⟨some "c1", some "20240101181500 +0000", some "20240101191500 +0000", some "Second", none,
      none, none⟩]

/-- A program attached to a previously published enriched record. -/
def staleProgram : ProgramInfoG := ⟨some "Old Show", none, 0, 3600, none, none⟩

/-- The session behind a previously published enriched record. -/
def staleSession : GSession := ⟨some "old-uuid", some "Old Channel"⟩

/-- A previously published enriched record that carries program data. -/
def staleEnriched : EnrichedG := ⟨staleSession, some "x1", some "Old Channel", none,
  some staleProgram⟩

/-- A previous tick's output: one enriched record, with program data. -/
def stalePrev : List (String × EnrichedG) := [("old-uuid", staleEnriched)]

/-- An active session of the current tick, absent from `stalePrev`. -/
def liveSession : GSession := ⟨some "u1", some "ESPN"⟩

/-- A guide channel element used to exercise the directory build. -/
def sampleXmlChannel : XmlChannel := ⟨some "ESPN", some "espn.us", some "logo-espn"⟩

/-- The directory that `sampleXmlChannel` builds. -/
def sampleBuiltMap : List (String × ChannelDetails) :=
  [("espn", ⟨"espn.us", "ESPN", some "logo-espn"⟩)]

/-- A registry channel entry with a uuid. -/
def sampleRegistryChannel : RegistryChannel := ⟨some "uuid-1", some "ESPN", some "7", some "espn.us"⟩

/-! ## Dictionary lemmas -/

theorem dictGet_eq_none_iff {α : Type} (k : String) (m : List (String × α)) :
    dictGet k m = none ↔ k ∉ m.map Prod.fst := by
  induction m with
  | nil => simp [dictGet]
  | cons kv rest ih =>
    by_cases h : kv.1 = k
    · simp [dictGet, h]
    · simp [dictGet, h, ih, Ne.symm h]

theorem dictGet_append_single {α : Type} (k k' : String) (v : α) (m : List (String × α)) :
    dictGet k (m ++ [(k', v)]) =
      match dictGet k m with
      | some w => some w
      | none => if k' = k then some v else none := by
  induction m with
  | nil => simp [dictGet]
  | cons kv rest ih =>
    by_cases h : kv.1 = k
    · simp [dictGet, h]
    · simpa [dictGet, h] using ih

theorem dictInsert_of_get_none {α : Type} {k : String} {m : List (String × α)}
    (h : dictGet k m = none) (v : α) : dictInsert m k v = m ++ [(k, v)] := by
  simp [dictInsert, h]

theorem dictInsert_length_le {α : Type} (m : List (String × α)) (k : String) (v : α) :
    (dictInsert m k v).length ≤ m.length + 1 := by
  unfold dictInsert
  cases dictGet k m <;> simp

theorem mem_dictInsert {α : Type} {kv : String × α} {m : List (String × α)}
    {k : String} {v : α} (h : kv ∈ dictInsert m k v) : kv ∈ m ∨ kv = (k, v) := by
  unfold dictInsert at h
  cases hg : dictGet k m with
  | some w =>
    rw [hg] at h
    simp only at h
    rcases List.mem_map.mp h with ⟨kv', hkv', heq⟩
    by_cases hk : kv'.1 = k
    · right; rw [if_pos hk] at heq; exact heq.symm
    · left; rw [if_neg hk] at heq; exact heq ▸ hkv'
  | none =>
    rw [hg] at h
    simp only at h
    rcases List.mem_append.mp h with h' | h'
    · exact Or.inl h'
    · right; simpa using h'

/-! ## Stable-sort lemmas for the name matcher -/

theorem insertDesc_eq_nil_false {α : Type} (x : String × α) (l : List (String × α)) :
    insertDesc x l ≠ [] := by
  cases l with
  | nil => simp [insertDesc]
  | cons y ys =>
    unfold insertDesc
    by_cases h : x.1.length < y.1.length <;> simp [h]

theorem mem_insertDesc {α : Type} {z x : String × α} {l : List (String × α)} :
    z ∈ insertDesc x l ↔ z = x ∨ z ∈ l := by
  induction l with
  | nil => simp [insertDesc]
  | cons y ys ih =>
    unfold insertDesc
    by_cases h : x.1.length < y.1.length
    · simp [h, ih]
      tauto
    · simp [h]

theorem sortByKeyLenDesc_head_max {α : Type} (l : List (String × α)) (hl : l ≠ []) :
    ∃ y t, sortByKeyLenDesc l = y :: t ∧ y ∈ l ∧ ∀ z ∈ l, z.1.length ≤ y.1.length := by
  induction l with
  | nil => exact absurd rfl hl
  | cons a l' ih =>
    cases l' with
    | nil =>
      refine ⟨a, [], ?_, List.mem_singleton.mpr rfl, ?_⟩
      · simp [sortByKeyLenDesc, insertDesc]
      · intro z hz; simp at hz; simp [hz]
    | cons b l'' =>
      obtain ⟨y, t, hsort, hmem, hmax⟩ := ih (by simp)
      have hstep : sortByKeyLenDesc (a :: b :: l'') = insertDesc a (sortByKeyLenDesc (b :: l'')) := rfl
      rw [hsort] at hstep
      by_cases h : a.1.length < y.1.length
      · refine ⟨y, insertDesc a t, ?_, List.mem_cons_of_mem a hmem, ?_⟩
        · rw [hstep]; simp [insertDesc, h]
        · intro z hz
          rcases List.mem_cons.mp hz with hz | hz
          · subst hz; exact Nat.le_of_lt h
          · exact hmax z hz
      · refine ⟨a, y :: t, ?_, List.mem_cons_self a _, ?_⟩
        · rw [hstep]; simp [insertDesc, h]
        · intro z hz
          rcases List.mem_cons.mp hz with hz | hz
          · subst hz; exact Nat.le_refl _
          · exact Nat.le_trans (hmax z hz) (Nat.le_of_not_lt h)

/-- C1: with no exact normalized match, the matcher collects every directory
key that is a substring of the normalized name and returns the entry with
the longest such key; ties go to the first key in map iteration order; on
the spec's examples, "Watch ESPN2 Now" selects the espn2 entry by longest
substring and "ESPN2 HD" normalizes to espn2 and wins by exact match. -/
theorem name_matcher_longest_substring_match :
    (∀ (cmap : List (String × ChannelDetails)) (nm : String),
      nm ≠ "" →
      dictGet (simplifyStreamName nm) cmap = none →
      cmap.filter (fun kv => strContains (simplifyStreamName nm).data kv.1.data) ≠ [] →
      ∃ k d, getChannelDetailsFromStreamName cmap nm = some d ∧
        (k, d) ∈ cmap ∧ strContains (simplifyStreamName nm).data k.data = true ∧
        ∀ kv ∈ cmap, strContains (simplifyStreamName nm).data kv.1.data = true →
          kv.1.length ≤ k.length) ∧
    getChannelDetailsFromStreamName espnMap "Watch ESPN2 Now" = some espn2Details ∧
    getChannelDetailsFromStreamName espnMap "ESPN2 HD" = some espn2Details ∧
    simplifyStreamName "ESPN2 HD" = "espn2" ∧
    getChannelDetailsFromStreamName tieMap "AB CD" = some tieDetailsA := by
  refine ⟨?_, by decide, by decide, by decide, by decide⟩
  intro cmap nm hnm hexact hposs
  obtain ⟨y, t, hsort, hmem, hmax⟩ := sortByKeyLenDesc_head_max _ hposs
  refine ⟨y.1, y.2, ?_, ?_, ?_, ?_⟩
  · simp only [getChannelDetailsFromStreamName, if_neg hnm, hexact, hsort]
  · exact (List.mem_filter.mp hmem).1
  · exact (List.mem_filter.mp hmem).2
  · intro kv hkv hsub
    exact hmax kv (List.mem_filter.mpr ⟨hkv, hsub⟩)

/-- Witness for C1: the longest-substring branch evaluated on the spec's
"Watch ESPN2 Now" example. -/
theorem name_matcher_longest_substring_match_witness :
    ∃ k d, getChannelDetailsFromStreamName espnMap "Watch ESPN2 Now" = some d ∧
      (k, d) ∈ espnMap ∧
      strContains (simplifyStreamName "Watch ESPN2 Now").data k.data = true ∧
      ∀ kv ∈ espnMap, strContains (simplifyStreamName "Watch ESPN2 Now").data kv.1.data = true →
        kv.1.length ≤ k.length :=
  name_matcher_longest_substring_match.1 espnMap "Watch ESPN2 Now" (by decide) (by decide)
    (by decide)

/-- C2: a programme with parseable start and stop timestamps is current at a
snapshot instant exactly when start is at or before the instant and the
instant is strictly before stop; in particular the spec's 18:00-19:00
programme is current at 18:30:00 UTC and not current at exactly
19:00:00 UTC. -/
theorem epg_current_iff_half_open_interval :
    (∀ (p : Programme) (now st en : Int),
      programmeInterval p = some (st, en) →
      (programmeCurrent p now = true ↔ st ≤ now ∧ now < en)) ∧
    (parseXmltvTimestamp "20240101183000 +0000").isSome = true ∧
    (parseXmltvTimestamp "20240101190000 +0000").isSome = true ∧
    programmeCurrent sampleProgramme ((parseXmltvTimestamp "20240101183000 +0000").getD 0) =
      true ∧
    programmeCurrent sampleProgramme ((parseXmltvTimestamp "20240101190000 +0000").getD 0) =
      false := by
  refine ⟨?_, by decide, by decide, by decide, by decide⟩
  intro p now st en h
  simp [programmeCurrent, h]

/-- Witness for C2: the interval characterization applied to the concrete
sample programme at the 18:30 instant. -/
theorem epg_current_iff_half_open_interval_witness :
    programmeCurrent sampleProgramme 1704133800 = true ↔
      (1704132000 : Int) ≤ 1704133800 ∧ (1704133800 : Int) < 1704135600 :=
  epg_current_iff_half_open_interval.1 sampleProgramme 1704133800 1704132000 1704135600
    (by decide)

/-! ## Lemmas about the registry-variant EPG loop -/

theorem currentProgramsLoop_cons (epgIds : List String) (now : Int) (p : Programme)
    (rest : List Programme) (cur : List (String × ProgramInfoS)) :
    currentProgramsLoop epgIds now (p :: rest) cur =
      currentProgramsLoop epgIds now rest (stepProg epgIds now cur p) := rfl

theorem dictGet_currentProgramsLoop (epgIds : List String) (now : Int)
    (progs : List Programme) (cur : List (String × ProgramInfoS)) (c : String) :
    dictGet c (currentProgramsLoop epgIds now progs cur) =
      match dictGet c cur with
      | some v => some v
      | none => if c ∈ epgIds then firstCurrentProgram progs c now else none := by
  induction progs generalizing cur with
  | nil =>
    simp only [currentProgramsLoop, firstCurrentProgram, List.findSome?_nil]
    cases dictGet c cur <;> simp
  | cons p rest ih =>
    rw [currentProgramsLoop_cons, ih]
    cases hch : p.channel with
    | none =>
      simp [stepProg, hch, firstCurrentProgram, List.findSome?_cons]
    | some ch =>
      by_cases hin : ch ∈ epgIds ∧ dictGet ch cur = none
      · cases hint : programmeInterval p with
        | none =>
          simp [stepProg, hch, hin, hint, firstCurrentProgram, List.findSome?_cons]
        | some stn =>
          obtain ⟨st, en⟩ := stn
          by_cases hcur : st ≤ now ∧ now < en
          · simp only [stepProg, hch, if_pos hin, hint, if_pos hcur]
            rw [dictGet_append_single]
            cases hg : dictGet c cur with
            | some v => simp
            | none =>
              by_cases heq : ch = c
              · subst heq
                simp [hin.1, firstCurrentProgram, List.findSome?_cons, hch, hint, hcur]
              · simp [heq, firstCurrentProgram, List.findSome?_cons, hch, hint, hcur]
          · simp [stepProg, hch, hin, hint, hcur, firstCurrentProgram, List.findSome?_cons]
      · simp only [stepProg, hch, if_neg hin]
        cases hg : dictGet c cur with
        | some v => simp [hg]
        | none =>
          by_cases hc : c ∈ epgIds
          · by_cases heq : ch = c
            · subst heq; exact absurd ⟨hc, hg⟩ hin
            · simp [hg, hc, firstCurrentProgram, List.findSome?_cons, hch, heq]
          · simp [hg, hc]

theorem currentProgramsLoop_keys_nodup (epgIds : List String) (now : Int)
    (progs : List Programme) (cur : List (String × ProgramInfoS))
    (h : (cur.map Prod.fst).Nodup) :
    ((currentProgramsLoop epgIds now progs cur).map Prod.fst).Nodup := by
  induction progs generalizing cur with
  | nil => simpa [currentProgramsLoop] using h
  | cons p rest ih =>
    rw [currentProgramsLoop_cons]
    apply ih
    unfold stepProg
    cases hch : p.channel with
    | none => exact h
    | some ch =>
      by_cases hin : ch ∈ epgIds ∧ dictGet ch cur = none
      · cases hint : programmeInterval p with
        | none => simp only [if_pos hin, hint]; exact h
        | some stn =>
          obtain ⟨st, en⟩ := stn
          by_cases hcur : st ≤ now ∧ now < en
          · simp only [if_pos hin, hint, if_pos hcur, List.map_append, List.map_cons,
              List.map_nil]
            have hnotin : ch ∉ cur.map Prod.fst := (dictGet_eq_none_iff ch cur).mp hin.2
            have hperm : (cur.map Prod.fst ++ [ch]).Perm (ch :: cur.map Prod.fst) :=
              List.perm_append_singleton ch (cur.map Prod.fst)
            exact hperm.nodup_iff.mpr (List.nodup_cons.mpr ⟨hnotin, h⟩)
          · simp only [if_pos hin, hint, if_neg hcur]; exact h
      · simp only [if_neg hin]; exact h

/-- C3: for every parsed document and every target key set, the registry
variant's current-programs map binds each channel key at most once (its key
list is duplicate-free), and the entry for a key is exactly the first
programme in document order whose interval contains the snapshot instant —
once found, later (e.g. overlapping) entries for the channel are ignored. -/
theorem epg_at_most_one_program_per_channel :
    ∀ (progs : List Programme) (epgIds : List String) (now : Int),
      ((currentProgramsLoop epgIds now progs []).map Prod.fst).Nodup ∧
      ∀ c, dictGet c (currentProgramsLoop epgIds now progs []) =
        (if c ∈ epgIds then firstCurrentProgram progs c now else none) := by
  intro progs epgIds now
  constructor
  · exact currentProgramsLoop_keys_nodup _ _ _ [] (by simp)
  · intro c
    rw [dictGet_currentProgramsLoop]
    simp [dictGet]

/-! ## Fold lemmas for the enrichment loops -/

theorem mem_foldl_dictInsert {β α : Type} (key : β → String) (val : β → α)
    (items : List β) (acc : List (String × α)) {kv : String × α}
    (h : kv ∈ items.foldl (fun m s => dictInsert m (key s) (val s)) acc) :
    kv ∈ acc ∨ ∃ s ∈ items, kv = (key s, val s) := by
  induction items generalizing acc with
  | nil => exact Or.inl (by simpa using h)
  | cons s rest ih =>
    rw [List.foldl_cons] at h
    rcases ih _ h with h' | h'
    · rcases mem_dictInsert h' with h'' | h''
      · exact Or.inl h''
      · exact Or.inr ⟨s, List.mem_cons_self s rest, h''⟩
    · rcases h' with ⟨s', hs', hkv⟩
      exact Or.inr ⟨s', List.mem_cons_of_mem s hs', hkv⟩

theorem enrichOneSensor_program_none (details : List (String × RegistryChannel))
    (baseUrl : String) (s : SSession) :
    (enrichOneSensor details baseUrl [] s).program = none := by
  unfold enrichOneSensor
  cases hd : dictGet s.channelId details with
  | none => rfl
  | some d =>
    cases ht : d.tvgId with
    | none => simp [ht]
    | some t => by_cases h : t = "" <;> simp [ht, h, dictGet]

theorem sensorEnrichLoop_program_none (details : List (String × RegistryChannel))
    (baseUrl : String) (sessions : List SSession) :
    ∀ kv ∈ sensorEnrichLoop details baseUrl [] sessions, kv.2.program = none := by
  intro kv hkv
  unfold sensorEnrichLoop at hkv
  rcases mem_foldl_dictInsert (fun s => s.channelId)
      (fun s => enrichOneSensor details baseUrl [] s) sessions [] hkv with h | ⟨s, _, hkv'⟩
  · simp at h
  · rw [hkv']
    exact enrichOneSensor_program_none details baseUrl s

theorem stepGuide_invalid (cmap : List (String × ChannelDetails)) (progs : List Programme)
    (now : Int) (acc : List (String × EnrichedG)) {s : GSession}
    (h : isValidGSession s = false) : stepGuide cmap progs now acc s = acc := by
  unfold stepGuide
  cases hcid : s.channelId with
  | none => rfl
  | some u =>
    cases hnm : s.streamName with
    | none => rfl
    | some n =>
      show (if u ≠ "" ∧ n ≠ "" then dictInsert acc u (enrichStreamGuide cmap progs now s n)
        else acc) = acc
      rw [if_neg]
      intro hcon
      unfold isValidGSession at h
      rw [hcid, hnm] at h
      simp [hcon.1, hcon.2] at h

theorem foldl_stepGuide_filter (cmap : List (String × ChannelDetails)) (progs : List Programme)
    (now : Int) (sessions : List GSession) (acc : List (String × EnrichedG)) :
    sessions.foldl (stepGuide cmap progs now) acc
      = (sessions.filter isValidGSession).foldl (stepGuide cmap progs now) acc := by
  induction sessions generalizing acc with
  | nil => rfl
  | cons s rest ih =>
    cases hv : isValidGSession s with
    | true =>
      rw [List.foldl_cons, List.filter_cons_of_pos hv, List.foldl_cons, ih]
    | false =>
      rw [List.foldl_cons, stepGuide_invalid cmap progs now acc hv,
        List.filter_cons_of_neg (by simp [hv]), ih]

theorem stepGuide_length_le (cmap : List (String × ChannelDetails)) (progs : List Programme)
    (now : Int) (acc : List (String × EnrichedG)) (s : GSession) :
    (stepGuide cmap progs now acc s).length ≤ acc.length + 1 := by
  unfold stepGuide
  cases s.channelId with
  | none => exact Nat.le_succ _
  | some u =>
    cases s.streamName with
    | none => exact Nat.le_succ _
    | some n =>
      show (if u ≠ "" ∧ n ≠ "" then dictInsert acc u (enrichStreamGuide cmap progs now s n)
        else acc).length ≤ acc.length + 1
      by_cases h : u ≠ "" ∧ n ≠ ""
      · rw [if_pos h]; exact dictInsert_length_le _ _ _
      · rw [if_neg h]; exact Nat.le_succ _

theorem foldl_stepGuide_length (cmap : List (String × ChannelDetails)) (progs : List Programme)
    (now : Int) (sessions : List GSession) (acc : List (String × EnrichedG)) :
    (sessions.foldl (stepGuide cmap progs now) acc).length ≤ acc.length + sessions.length := by
  induction sessions generalizing acc with
  | nil => simp
  | cons s rest ih =>
    rw [List.foldl_cons]
    have h1 := ih (stepGuide cmap progs now acc s)
    have h2 := stepGuide_length_le cmap progs now acc s
    simp only [List.length_cons]
    omega

/-- C10: in the guide-sourced variant, sessions lacking a truthy channel id
or stream name are silently omitted: the enriched loop output is unchanged
by dropping them first, the tick's published map is exactly the loop over
the valid sessions, and the map never has more entries than there were
active sessions. -/
theorem invalid_sessions_omitted_from_enrichment :
    (∀ (cmap : List (String × ChannelDetails)) (progs : List Programme) (now : Int)
        (sessions : List GSession),
      enrichLoopGuide cmap progs now sessions
        = enrichLoopGuide cmap progs now (sessions.filter isValidGSession)) ∧
    (∀ (cmap : List (String × ChannelDetails)) (progs : List Programme) (now : Int)
        (sessions : List GSession),
      (enrichLoopGuide cmap progs now sessions).length ≤ sessions.length) ∧
    (∀ (cmap : List (String × ChannelDetails)) (progs : List Programme) (now : Int)
        (sessions : List GSession) (prev : Option (List (String × EnrichedG))),
      (updateDataGuide cmap sessions (some progs) prev now).1
        = some (enrichLoopGuide cmap progs now (sessions.filter isValidGSession))) := by
  refine ⟨?_, ?_, ?_⟩
  · intro cmap progs now sessions
    exact foldl_stepGuide_filter cmap progs now sessions []
  · intro cmap progs now sessions
    simpa using foldl_stepGuide_length cmap progs now sessions []
  · intro cmap progs now sessions prev
    by_cases h : sessions = []
    · subst h; rfl
    · unfold updateDataGuide
      rw [if_neg h]
      simp only
      rw [show enrichLoopGuide cmap progs now sessions
          = enrichLoopGuide cmap progs now (sessions.filter isValidGSession) from
        foldl_stepGuide_filter cmap progs now sessions []]

/-- C7: a tick whose live-sessions response lists no active streams
publishes an empty enriched map and makes no request to the guide endpoint,
in both variants. -/
theorem empty_sessions_fast_path_no_epg_fetch :
    (∀ (cmap : List (String × ChannelDetails)) (guideDoc : Option (List Programme))
        (prev : Option (List (String × EnrichedG))) (now : Int),
      updateDataGuide cmap [] guideDoc prev now = (some [], 0)) ∧
    (∀ (details : List (String × RegistryChannel)) (baseUrl : String)
        (guideDoc : Option (List Programme)) (now : Int),
      updateDataSensor details baseUrl [] guideDoc now = ([], 0)) := by
  exact ⟨fun _ _ _ _ => rfl, fun _ _ _ _ => rfl⟩

/-- C9: within one tick, the guide endpoint is requested at most once in
either variant, no matter how many sessions or channel keys need program
resolution. -/
theorem epg_fetched_at_most_once_per_tick :
    (∀ (cmap : List (String × ChannelDetails)) (sessions : List GSession)
        (guideDoc : Option (List Programme)) (prev : Option (List (String × EnrichedG)))
        (now : Int),
      (updateDataGuide cmap sessions guideDoc prev now).2 ≤ 1) ∧
    (∀ (details : List (String × RegistryChannel)) (baseUrl : String)
        (sessions : List SSession) (guideDoc : Option (List Programme)) (now : Int),
      (updateDataSensor details baseUrl sessions guideDoc now).2 ≤ 1) := by
  constructor
  · intro cmap sessions guideDoc prev now
    unfold updateDataGuide
    by_cases h : sessions = []
    · simp [h]
    · cases guideDoc <;> simp [h]
  · intro details baseUrl sessions guideDoc now
    unfold updateDataSensor getCurrentProgramsFromXml
    by_cases h : sessions = []
    · simp [h]
    · by_cases h2 : activeEpgIds details sessions = []
      · simp [h, h2]
      · cases guideDoc <;> simp [h, h2]

/-- C4 counterexample: in the guide-sourced variant, a tick with one active
session and an unparsable guide document publishes the previous tick's
output unchanged — here a map that still carries program data and has no
entry for the active session — rather than fresh enriched records lacking
program data. -/
theorem unparsable_guide_tick_keeps_stale_output_cex :
    (updateDataGuide espnMap [liveSession] none (some stalePrev) 0).1 = some stalePrev ∧
    (∃ kv ∈ stalePrev, kv.2.program ≠ none) ∧
    dictGet "u1" stalePrev = none := by
  refine ⟨rfl, ⟨("old-uuid", staleEnriched), by decide, by decide⟩, by decide⟩

/-- C4 (amended): an unparsable guide document never aborts a regular tick;
in the registry-sourced variant the tick completes with an empty program map
and every published record lacks program data, while in the guide-sourced
variant the tick publishes the previous tick's output unchanged instead of
producing fresh records. -/
theorem unparsable_guide_tick_degrades :
    (∀ (cmap : List (String × ChannelDetails)) (sessions : List GSession)
        (prev : Option (List (String × EnrichedG))) (now : Int),
      sessions ≠ [] → updateDataGuide cmap sessions none prev now = (prev, 1)) ∧
    (∀ (details : List (String × RegistryChannel)) (baseUrl : String)
        (sessions : List SSession) (now : Int),
      ∀ kv ∈ (updateDataSensor details baseUrl sessions none now).1, kv.2.program = none) := by
  constructor
  · intro cmap sessions prev now h
    unfold updateDataGuide
    rw [if_neg h]
  · intro details baseUrl sessions now kv hkv
    unfold updateDataSensor at hkv
    by_cases h : sessions = []
    · rw [if_pos h] at hkv; simp at hkv
    · rw [if_neg h] at hkv
      simp only at hkv
      have hmap : (getCurrentProgramsFromXml (activeEpgIds details sessions) none now).1 = [] := by
        unfold getCurrentProgramsFromXml
        by_cases h2 : activeEpgIds details sessions = [] <;> simp [h2]
      rw [hmap] at hkv
      exact sensorEnrichLoop_program_none details baseUrl sessions kv hkv

/-- Witness for the amended C4: both branches evaluated on concrete inputs
with a non-empty session list and an unparsable document. -/
theorem unparsable_guide_tick_degrades_witness :
    updateDataGuide espnMap [liveSession] none (some stalePrev) 0 = (some stalePrev, 1) ∧
    ∀ kv ∈ (updateDataSensor [] "http-base" [⟨"u1"⟩] none 0).1, kv.2.program = none :=
  ⟨unparsable_guide_tick_degrades.1 espnMap [liveSession] (some stalePrev) 0 (by decide),
    unparsable_guide_tick_degrades.2 [] "http-base" [⟨"u1"⟩] 0⟩

/-- C5: an authenticated request that was actually issued and answered 401
triggers exactly one re-authentication; when that re-authentication
succeeds, exactly one retry of the same request is issued, and if the
retried request fails again (any status of 400 or above, including a second
401) the call surfaces the update-failed condition instead of looping. -/
theorem api_request_single_reauth_retry :
    ∀ (hasToken auth1Ok auth2Ok : Bool) (r1 r2 : Nat),
      r1 = 401 → (hasToken = true ∨ auth1Ok = true) →
      (apiRequest hasToken auth1Ok auth2Ok r1 r2).reauths = 1 ∧
      ((if hasToken = true then auth1Ok else auth2Ok) = true →
        (apiRequest hasToken auth1Ok auth2Ok r1 r2).requests = 2 ∧
        (400 ≤ r2 → (apiRequest hasToken auth1Ok auth2Ok r1 r2).result = .updateFailed)) := by
  intro hasToken a1 a2 r1 r2 h1 h2
  subst h1
  cases hasToken with
  | true =>
    cases a1 with
    | true =>
      refine ⟨by simp [apiRequest], fun _ => ⟨by simp [apiRequest], fun hr => ?_⟩⟩
      simp [apiRequest, Nat.not_lt.mpr hr]
    | false =>
      refine ⟨by simp [apiRequest], fun hcon => ?_⟩
      simp at hcon
  | false =>
    cases a1 with
    | false =>
      rcases h2 with h | h <;> simp_all
    | true =>
      cases a2 with
      | true =>
        refine ⟨by simp [apiRequest], fun _ => ⟨by simp [apiRequest], fun hr => ?_⟩⟩
        simp [apiRequest, Nat.not_lt.mpr hr]
      | false =>
        refine ⟨by simp [apiRequest], fun hcon => ?_⟩
        simp at hcon

/-- Witness for C5: a call with a cached token that receives 401 twice makes
one re-authentication, two requests, and fails the tick. -/
theorem api_request_single_reauth_retry_witness :
    (apiRequest true true true 401 401).reauths = 1 ∧
    (apiRequest true true true 401 401).requests = 2 ∧
    (apiRequest true true true 401 401).result = .updateFailed := by
  have h := api_request_single_reauth_retry true true true 401 401 rfl (Or.inl rfl)
  exact ⟨h.1, (h.2 rfl).1, (h.2 rfl).2 (by omega)⟩

/-! ## Counting lemmas for the directory builds -/

theorem foldl_stepChannelMap_length (channels : List XmlChannel)
    (acc : List (String × ChannelDetails))
    (hval : ∀ ch ∈ channels, isValidXmlChannel ch = true)
    (hnodup : (acc.map Prod.fst ++ channels.map slugOfChannel).Nodup) :
    (channels.foldl stepChannelMap acc).length = acc.length + channels.length := by
  induction channels generalizing acc with
  | nil => simp
  | cons ch rest ih =>
    have hv := hval ch (List.mem_cons_self ch rest)
    cases hdn : ch.displayName with
    | none => rw [isValidXmlChannel, hdn] at hv; simp at hv
    | some dn =>
      cases hid : ch.id with
      | none => rw [isValidXmlChannel, hdn, hid] at hv; simp at hv
      | some cid =>
        rw [isValidXmlChannel, hdn, hid] at hv
        simp only [Bool.and_eq_true, decide_eq_true_eq] at hv
        have hslug : slugOfChannel ch = slugify dn := by rw [slugOfChannel, hdn]; rfl
        rw [List.map_cons, hslug] at hnodup
        have hdisj := List.disjoint_of_nodup_append hnodup
        have hfresh : slugify dn ∉ acc.map Prod.fst :=
          fun hmem => hdisj hmem (List.mem_cons_self _ _)
        have hget : dictGet (slugify dn) acc = none := (dictGet_eq_none_iff _ _).mpr hfresh
        have hstep : stepChannelMap acc ch = acc ++ [(slugify dn, ⟨cid, dn, ch.iconSrc⟩)] := by
          unfold stepChannelMap
          rw [hdn, hid]
          show (if dn ≠ "" ∧ cid ≠ "" then dictInsert acc (slugify dn) ⟨cid, dn, ch.iconSrc⟩
            else acc) = acc ++ [(slugify dn, ⟨cid, dn, ch.iconSrc⟩)]
          rw [if_pos ⟨hv.1, hv.2⟩, dictInsert_of_get_none hget]
        have hval' : ∀ c ∈ rest, isValidXmlChannel c = true :=
          fun c hc => hval c (List.mem_cons_of_mem _ hc)
        have hnodup' : ((acc ++ [(slugify dn, (⟨cid, dn, ch.iconSrc⟩ : ChannelDetails))]).map
            Prod.fst ++ rest.map slugOfChannel).Nodup := by
          rw [List.map_append, List.map_cons, List.map_nil, List.append_assoc]
          simpa using hnodup
        rw [List.foldl_cons, hstep, ih _ hval' hnodup']
        simp only [List.length_append, List.length_cons, List.length_nil]
        omega

theorem foldl_stepChannelDetails_length (l : List RegistryChannel)
    (acc : List (String × RegistryChannel))
    (hnodup : (acc.map Prod.fst
        ++ (l.filter (fun ch => ch.uuid.isSome)).map (fun ch => ch.uuid.getD "")).Nodup) :
    (l.foldl stepChannelDetails acc).length
      = acc.length + (l.filter (fun ch => ch.uuid.isSome)).length := by
  induction l generalizing acc with
  | nil => simp
  | cons ch rest ih =>
    cases hu : ch.uuid with
    | none =>
      have hfilter : (ch :: rest).filter (fun ch => ch.uuid.isSome)
          = rest.filter (fun ch => ch.uuid.isSome) := by
        rw [List.filter_cons_of_neg (by simp [hu])]
      rw [hfilter] at hnodup ⊢
      have hstep : stepChannelDetails acc ch = acc := by unfold stepChannelDetails; rw [hu]
      rw [List.foldl_cons, hstep, ih acc hnodup]
    | some u =>
      have hfilter : (ch :: rest).filter (fun ch => ch.uuid.isSome)
          = ch :: rest.filter (fun ch => ch.uuid.isSome) := by
        rw [List.filter_cons_of_pos (by simp [hu])]
      rw [hfilter] at hnodup ⊢
      rw [List.map_cons] at hnodup
      have hgetd : ch.uuid.getD "" = u := by rw [hu]; rfl
      rw [hgetd] at hnodup
      have hdisj := List.disjoint_of_nodup_append hnodup
      have hfresh : u ∉ acc.map Prod.fst := fun hmem => hdisj hmem (List.mem_cons_self _ _)
      have hget : dictGet u acc = none := (dictGet_eq_none_iff _ _).mpr hfresh
      have hstep : stepChannelDetails acc ch = acc ++ [(u, ch)] := by
        unfold stepChannelDetails
        rw [hu]
        show dictInsert acc u ch = acc ++ [(u, ch)]
        rw [dictInsert_of_get_none hget]
      have hnodup' : ((acc ++ [(u, ch)]).map Prod.fst
          ++ (rest.filter (fun ch => ch.uuid.isSome)).map (fun ch => ch.uuid.getD "")).Nodup := by
        rw [List.map_append, List.map_cons, List.map_nil, List.append_assoc]
        simpa using hnodup
      rw [List.foldl_cons, hstep, ih _ hnodup']
      simp only [List.length_append, List.length_cons, List.length_nil]
      omega

/-- C6 counterexample: the registry-sourced build with a successfully parsed
but empty channel list yields an empty directory and succeeds — no fatal
initialization error is raised, contradicting the claim that zero entries is
always setup-fatal. -/
theorem registry_build_empty_not_fatal_cex :
    populateChannelDetails [] (some []) = .ok [] ∧ buildChannelDetails (some []) = [] :=
  ⟨rfl, rfl⟩

/-- C6 (amended): only the guide-sourced build treats an empty resulting
directory as a fatal not-ready error; the registry-sourced build accepts a
successfully parsed list yielding zero entries and never raises. In both
variants, N valid uniquely-keyed source entries produce exactly N directory
entries, and registry entries lacking the uuid field are dropped, leaving
one entry per uuid-bearing source entry. -/
theorem directory_build_zero_entries_and_count :
    (∀ (prior : List (String × ChannelDetails)) (channels : List XmlChannel),
      buildChannelMapFromXml channels = [] →
      populateChannelMapFromXml prior (some channels)
        = .error "XML was fetched, but no channels could be mapped.") ∧
    (∀ (prior : List (String × ChannelDetails)) (doc : Option (List XmlChannel))
        (m : List (String × ChannelDetails)),
      populateChannelMapFromXml prior doc = .ok m → m ≠ []) ∧
    (∀ (prior : List (String × RegistryChannel)) (resp : Option (List RegistryChannel)),
      populateChannelDetails prior resp = .ok (buildChannelDetails resp)) ∧
    (∀ channels : List XmlChannel,
      (∀ ch ∈ channels, isValidXmlChannel ch = true) →
      (channels.map slugOfChannel).Nodup →
      (buildChannelMapFromXml channels).length = channels.length) ∧
    (∀ l : List RegistryChannel,
      ((l.filter (fun ch => ch.uuid.isSome)).map (fun ch => ch.uuid.getD "")).Nodup →
      (buildChannelDetails (some l)).length = (l.filter (fun ch => ch.uuid.isSome)).length) := by
  refine ⟨?_, ?_, ?_, ?_, ?_⟩
  · intro prior channels h
    unfold populateChannelMapFromXml
    simp [h]
  · intro prior doc m h
    cases doc with
    | none => exact absurd h (by simp [populateChannelMapFromXml])
    | some channels =>
      unfold populateChannelMapFromXml at h
      simp only at h
      by_cases he : buildChannelMapFromXml channels = []
      · rw [if_pos he] at h; exact absurd h (by simp)
      · rw [if_neg he] at h
        injection h with h
        exact h ▸ he
  · intro prior resp; rfl
  · intro channels hval hnodup
    simpa using foldl_stepChannelMap_length channels [] hval (by simpa using hnodup)
  · intro l hnodup
    simpa using foldl_stepChannelDetails_length l [] (by simpa using hnodup)

/-- Witness for the amended C6: the empty guide build errors; one valid
guide channel builds one entry; a two-entry registry list with one
uuid-less entry builds exactly one entry. -/
theorem directory_build_zero_entries_and_count_witness :
    populateChannelMapFromXml [] (some [])
      = .error "XML was fetched, but no channels could be mapped." ∧
    (buildChannelMapFromXml [sampleXmlChannel]).length = 1 ∧
    (buildChannelDetails (some [sampleRegistryChannel, ⟨none, some "NoId", none, none⟩])).length
      = 1 := by
  refine ⟨directory_build_zero_entries_and_count.1 [] [] rfl, ?_, ?_⟩
  · have h := directory_build_zero_entries_and_count.2.2.2.1 [sampleXmlChannel]
      (by decide) (by decide)
    simpa using h
  · have h := directory_build_zero_entries_and_count.2.2.2.2
      [sampleRegistryChannel, ⟨none, some "NoId", none, none⟩] (by decide)
    simpa using h

/-- C8: rebuilding a channel directory from identical source data is
idempotent in both variants: a successful build installed as the new
directory state, rebuilt from the same input, reproduces exactly the same
mapping (the prior state is never merged in). -/
theorem directory_build_idempotent :
    (∀ (prior : List (String × ChannelDetails)) (doc : Option (List XmlChannel))
        (m : List (String × ChannelDetails)),
      populateChannelMapFromXml prior doc = .ok m → populateChannelMapFromXml m doc = .ok m) ∧
    (∀ (prior : List (String × RegistryChannel)) (resp : Option (List RegistryChannel))
        (m : List (String × RegistryChannel)),
      populateChannelDetails prior resp = .ok m → populateChannelDetails m resp = .ok m) := by
  constructor
  · intro prior doc m h
    have heq : populateChannelMapFromXml m doc = populateChannelMapFromXml prior doc := rfl
    rw [heq, h]
  · intro prior resp m h
    have heq : populateChannelDetails m resp = populateChannelDetails prior resp := rfl
    rw [heq, h]

/-- Witness for C8: rebuilding from the same single-channel document
reproduces the same directory, in both variants. -/
theorem directory_build_idempotent_witness :
    populateChannelMapFromXml sampleBuiltMap (some [sampleXmlChannel]) = .ok sampleBuiltMap ∧
    populateChannelDetails [("uuid-1", sampleRegistryChannel)] (some [sampleRegistryChannel])
      = .ok [("uuid-1", sampleRegistryChannel)] :=
  ⟨directory_build_idempotent.1 [] (some [sampleXmlChannel]) sampleBuiltMap rfl,
    directory_build_idempotent.2 [] (some [sampleRegistryChannel])
      [("uuid-1", sampleRegistryChannel)] rfl⟩

end Dispatcharr
